import Mathlib

/-!
Verification development for the `kagi-search` content-fetching subsystem
(`src/kagi-search/main.go`).

The embedding models:
- the IP block policy `isBlockedIP` together with the Go `net.IP`
  classification methods it calls;
- the URL validator `validateRemoteFetchURL`;
- the pinned dialer and the redirect-guarded HTTP client built in
  `newSafeContentClient`, as a state machine over an abstract `World`
  (DNS answers, TCP reachability, server responses);
- `fetchPageContent` with its extraction pipeline (`tryReadability`,
  `extractTitle`, `extractReadableText`) and `truncateRunes`.

Go strings are modeled as Lean `String`/`List Char`, where one `Char` plays
the role of one Go rune (code point).  Machine integers are modeled as
`Nat`/`Int`; all byte values are `Nat` with explicit well-formedness bounds
where a theorem needs them.
-/

/-- Model of a non-nil Go `net.IP` value as classified by `To4()`:
`v4 a b c d` stands for every address whose `To4()` is non-nil (genuine
4-byte addresses and IPv4-mapped IPv6 addresses), `v6 bytes` for a 16-byte
address whose `To4()` is nil.  Bytes are `Nat`s; well-formed values have
every byte `< 256` and, for `v6`, exactly 16 bytes. -/
inductive IPAddr where
  | v4 (a b c d : Nat)
  | v6 (bytes : List Nat)
  deriving DecidableEq, Repr

/-- Byte form of the IPv6 loopback address `::1` (Go `net.IPv6loopback`). -/
def v6LoopbackBytes : List Nat := [0, 0, 0, 0, 0, 0, 0, 0, 0, 0, 0, 0, 0, 0, 0, 1]

/-- Byte form of the IPv6 unspecified address `::` (Go `net.IPv6unspecified`). -/
def v6ZeroBytes : List Nat := [0, 0, 0, 0, 0, 0, 0, 0, 0, 0, 0, 0, 0, 0, 0, 0]

/-- Models Go `net.IP.IsLoopback`. -/
def IPAddr.isLoopback : IPAddr → Bool
  | .v4 a _ _ _ => a == 127
  | .v6 bs => bs == v6LoopbackBytes

/-- Models Go `net.IP.IsUnspecified` (`Equal(IPv4zero) || Equal(IPv6unspecified)`;
for a 16-byte address with `To4() == nil`, equality with `IPv4zero` is
impossible, leaving equality with `::`). -/
def IPAddr.isUnspecified : IPAddr → Bool
  | .v4 a b c d => a == 0 && b == 0 && c == 0 && d == 0
  | .v6 bs => bs == v6ZeroBytes

/-- Models Go `net.IP.IsMulticast`. -/
def IPAddr.isMulticast : IPAddr → Bool
  | .v4 a _ _ _ => a &&& 0xf0 == 0xe0
  | .v6 bs => bs.length == 16 && bs.getD 0 0 == 0xff

/-- Models Go `net.IP.IsLinkLocalUnicast`. -/
def IPAddr.isLinkLocalUnicast : IPAddr → Bool
  | .v4 a b _ _ => a == 169 && b == 254
  | .v6 bs => bs.length == 16 && bs.getD 0 0 == 0xfe && bs.getD 1 0 &&& 0xc0 == 0x80

/-- Models Go `net.IP.IsLinkLocalMulticast`. -/
def IPAddr.isLinkLocalMulticast : IPAddr → Bool
  | .v4 a b c _ => a == 224 && b == 0 && c == 0
  | .v6 bs => bs.length == 16 && bs.getD 0 0 == 0xff && bs.getD 1 0 &&& 0x0f == 0x02

/-- Models Go `net.IP.IsPrivate` (RFC 1918 for IPv4, RFC 4193 `fc00::/7` for IPv6). -/
def IPAddr.isPrivate : IPAddr → Bool
  | .v4 a b _ _ => a == 10 || (a == 172 && b &&& 0xf0 == 16) || (a == 192 && b == 168)
  | .v6 bs => bs.length == 16 && bs.getD 0 0 &&& 0xfe == 0xfc

/-- Models `isBlockedIP` from `main.go`.  The argument is `Option IPAddr`
with `none` playing the role of a nil `net.IP`. -/
def isBlockedIP : Option IPAddr → Bool
  | none => true
  | some ip =>
    if ip.isLoopback || ip.isUnspecified || ip.isMulticast || ip.isLinkLocalUnicast
        || ip.isLinkLocalMulticast || ip.isPrivate then
      true
    else
      match ip with
      | .v4 a b _ _ =>
        if a == 0 || a ≥ 224 then true
        else if a == 100 && b ≥ 64 && b ≤ 127 then true
        else false
      | .v6 _ => false

/-- Well-formedness of a modeled IP value: every byte below 256 and, for the
16-byte form, exactly 16 bytes. -/
def IPAddr.WF : IPAddr → Prop
  | .v4 a b c d => a < 256 ∧ b < 256 ∧ c < 256 ∧ d < 256
  | .v6 bs => bs.length = 16 ∧ ∀ b ∈ bs, b < 256

instance : DecidablePred IPAddr.WF := fun ip =>
  match ip with
  | .v4 _ _ _ _ => inferInstanceAs (Decidable (_ ∧ _ ∧ _ ∧ _))
  | .v6 _ => inferInstanceAs (Decidable (_ ∧ _))

/-- Well-formedness lifted to the `Option` used by `isBlockedIP`. -/
def WFopt : Option IPAddr → Prop
  | none => True
  | some ip => ip.WF

instance : DecidablePred WFopt := fun x =>
  match x with
  | none => inferInstanceAs (Decidable True)
  | some _ => inferInstanceAs (Decidable (IPAddr.WF _))

/-- Splits a character list at every occurrence of `sep`
(the semantics of Go `strings.Split` for a one-character separator). -/
def splitOnChar (sep : Char) : List Char → List (List Char)
  | [] => [[]]
  | c :: rest =>
    if c = sep then [] :: splitOnChar sep rest
    else
      match splitOnChar sep rest with
      | [] => [[c]]
      | l :: ls => (c :: l) :: ls

/-- Converts a non-empty list of decimal digits to its value. -/
def digitsVal : List Char → Nat
  | [] => 0
  | c :: rest => (c.toNat - '0'.toNat) * 10 ^ rest.length + digitsVal rest

/-- Models one dotted-quad field of Go `net.ParseIP`: one to three decimal
digits, value at most 255, no leading zero (Go rejects leading zeros since 1.17). -/
def parseOctet (l : List Char) : Option Nat :=
  if l.length = 0 || l.length > 3 then none
  else if !(l.all Char.isDigit) then none
  else if l.length > 1 && l.headD '0' = '0' then none
  else if digitsVal l ≤ 255 then some (digitsVal l) else none

/-- Models Go `net.ParseIP` restricted to dotted-quad IPv4 literals; every
other string (hostnames, and IPv6 literals, which no claim exercises) maps
to `none`, the model of a nil result. -/
def parseIP (s : String) : Option IPAddr :=
  match (splitOnChar '.' s.toList).mapM parseOctet with
  | some [a, b, c, d] => some (.v4 a b c d)
  | _ => none

/-- Model of a parsed Go `net/url.URL` as used by the fetch path:
`hostname` is the result of `u.Hostname()` (no port, no brackets), `port`
the result of `u.Port()` (empty when absent), `rest` the remainder of the
URL (path and query), which the fetch logic treats as opaque. -/
structure GoURL where
  scheme : String
  hostname : String
  port : String
  rest : String
  deriving DecidableEq, Repr

/-- Model of a raw URL string as seen by `url.ParseRequestURI` (after the
surrounding `strings.TrimSpace`): either it fails to parse, or it parses to
a `GoURL`.  Serializing a parsed URL with `String()` and re-parsing it is
assumed to round-trip. -/
inductive RawURL where
  | malformed (s : String)
  | wellFormed (u : GoURL)
  deriving DecidableEq, Repr

/-- Error kinds of the fetch path (the spec's error taxonomy, §7). -/
inductive FetchError where
  | invalidURL (s : String)
  | invalidScheme (s : String)
  | missingHost
  | blockedIP (ip : IPAddr)
  | allCandidatesBlocked (host : String)
  | dnsFailure (host : String)
  | connectionFailure
  | missingLocation
  | tooManyRedirects
  | httpStatus (code : Nat)
  | extractionFailure
  deriving DecidableEq, Repr

/-- Models `validateRemoteFetchURL` from `main.go`. -/
def validateRemoteFetchURL : RawURL → Except FetchError GoURL
  | .malformed s => .error (.invalidURL s)
  | .wellFormed u =>
    if u.scheme != "http" && u.scheme != "https" then .error (.invalidScheme u.scheme)
    else if u.hostname == "" then .error .missingHost
    else
      match parseIP u.hostname with
      | some ip => if isBlockedIP (some ip) then .error (.blockedIP ip) else .ok u
      | none => .ok u

/-- Validation of an already-parsed URL; this is what the redirect guard
effectively runs, since it validates `req.URL.String()` of a parsed URL. -/
def validateParsed (u : GoURL) : Except FetchError GoURL :=
  validateRemoteFetchURL (.wellFormed u)

/-- Models `unicode.IsSpace` restricted to the Latin-1 range (space, the
ASCII control whitespace, NEL and NBSP); the higher Unicode space code
points are not exercised by any claim. -/
def isGoSpace (c : Char) : Bool :=
  c == ' ' || c == '\t' || c == '\n' || c == '\u000B' || c == '\u000C' || c == '\r'
    || c == '\u0085' || c == ' '

/-- Models `strings.TrimSpace` on a character list. -/
def goTrimSpace (l : List Char) : List Char :=
  ((l.dropWhile isGoSpace).reverse.dropWhile isGoSpace).reverse

/-- Models `strings.TrimSpace` on a string. -/
def goTrimSpaceStr (s : String) : String :=
  String.mk (goTrimSpace s.toList)

/-- Accumulator loop for `goFields`: `acc` is the current word, reversed. -/
def goFieldsAux : List Char → List Char → List (List Char)
  | [], acc => if acc.isEmpty then [] else [acc.reverse]
  | c :: rest, acc =>
    if isGoSpace c then
      if acc.isEmpty then goFieldsAux rest [] else acc.reverse :: goFieldsAux rest []
    else goFieldsAux rest (c :: acc)

/-- Models `strings.Fields`: the maximal runs of non-whitespace characters. -/
def goFields (l : List Char) : List (List Char) :=
  goFieldsAux l []

/-- Models `cleanLine` from `main.go`:
`strings.Join(strings.Fields(strings.TrimSpace(s)), " ")`. -/
def cleanLine (s : String) : String :=
  String.mk (List.intercalate [' '] (goFields (goTrimSpace s.toList)))

/-- ASCII lowering, modeling the effect of the `(?i)` regexp flag on the
ASCII tag names matched by the extraction regexps. -/
def lowerAscii (c : Char) : Char :=
  if 'A' ≤ c ∧ c ≤ 'Z' then Char.ofNat (c.toNat + 32) else c

/-- Case-insensitive (ASCII) prefix test. -/
def isPrefixOfCI : List Char → List Char → Bool
  | [], _ => true
  | _ :: _, [] => false
  | p :: ps, c :: cs => lowerAscii c == lowerAscii p && isPrefixOfCI ps cs

/-- Splits at the first occurrence of the pattern: returns the part before
it and the part after it, or `none` when the pattern does not occur. -/
def splitSub (pat : List Char) : List Char → Option (List Char × List Char)
  | [] => none
  | c :: rest =>
    if pat.isPrefixOf (c :: rest) then some ([], (c :: rest).drop pat.length)
    else
      match splitSub pat rest with
      | some (pre, post) => some (c :: pre, post)
      | none => none

/-- Case-insensitive variant of `splitSub`. -/
def splitSubCI (pat : List Char) : List Char → Option (List Char × List Char)
  | [] => none
  | c :: rest =>
    if isPrefixOfCI pat (c :: rest) then some ([], (c :: rest).drop pat.length)
    else
      match splitSubCI pat rest with
      | some (pre, post) => some (c :: pre, post)
      | none => none

/-- Drops characters up to and including the first `>`, the semantics of the
`[^>]*>` tail of the tag regexps; `none` when no `>` remains. -/
def dropThroughGt : List Char → Option (List Char)
  | [] => none
  | c :: rest => if c = '>' then some rest else dropThroughGt rest

/-- Tag names of the `reNoise` regexp in `main.go`. -/
def noiseNames : List (List Char) :=
  ["script".toList, "style".toList, "noscript".toList, "svg".toList, "iframe".toList,
   "nav".toList, "header".toList, "footer".toList, "aside".toList]

/-- Tag names of the `reBlocks` regexp in `main.go` (`h[1-6]` expanded). -/
def blockNames : List (List Char) :=
  ["p".toList, "div".toList, "section".toList, "article".toList, "main".toList,
   "h1".toList, "h2".toList, "h3".toList, "h4".toList, "h5".toList, "h6".toList,
   "li".toList, "ul".toList, "ol".toList, "blockquote".toList, "pre".toList,
   "tr".toList, "table".toList, "hr".toList, "br".toList]

/-- Matches `<name[^>]*>` for one of `names` at the head of the list and
returns the remainder after the closing `>`. -/
def matchOpenTag (names : List (List Char)) : List Char → Option (List Char)
  | '<' :: rest =>
    if names.any (fun n => isPrefixOfCI n rest) then dropThroughGt rest else none
  | _ => none

/-- Matches the alternation `name>` for one of `names` at the head of the
list (the tail of a `</name>` close-tag pattern, which allows no attributes)
and returns the remainder after the `>`. -/
def matchNameGt : List (List Char) → List Char → Option (List Char)
  | [], _ => none
  | n :: ns, rest =>
    if isPrefixOfCI n rest then
      match rest.drop n.length with
      | '>' :: post => some post
      | _ => matchNameGt ns rest
    else matchNameGt ns rest

/-- Matches `</name>` for one of `names` at the head of the list. -/
def matchCloseTag (names : List (List Char)) : List Char → Option (List Char)
  | '<' :: '/' :: rest => matchNameGt names rest
  | _ => none

/-- Scans for the first `</name>` close tag (any of `names`), the semantics
of the non-greedy `.*?</(?:...)>` tail of `reNoise`; returns the remainder
after it. -/
def findCloseTag (names : List (List Char)) : List Char → Option (List Char)
  | [] => none
  | c :: rest =>
    match matchCloseTag names (c :: rest) with
    | some post => some post
    | none => findCloseTag names rest

/-- Fuel-driven scan modeling `reComments.ReplaceAllString(s, " ")` with
`reComments = (?is)<!--.*?-->`: each comment is replaced by one space.  The
fuel is an upper bound on the scan steps; callers pass the input length. -/
def replaceCommentsAux : Nat → List Char → List Char
  | 0, l => l
  | _ + 1, [] => []
  | fuel + 1, c :: rest =>
    if ['<', '!', '-', '-'].isPrefixOf (c :: rest) then
      match splitSub ['-', '-', '>'] ((c :: rest).drop 4) with
      | some (_, post) => ' ' :: replaceCommentsAux fuel post
      | none => c :: replaceCommentsAux fuel rest
    else c :: replaceCommentsAux fuel rest

/-- Models `reComments.ReplaceAllString(s, " ")`. -/
def replaceComments (l : List Char) : List Char :=
  replaceCommentsAux l.length l

/-- Fuel-driven scan modeling `reNoise.ReplaceAllString(s, "\n")`: an
opening noise tag followed (non-greedily) by any close tag of the noise set
is replaced, content included, by one newline. -/
def replaceNoiseAux : Nat → List Char → List Char
  | 0, l => l
  | _ + 1, [] => []
  | fuel + 1, c :: rest =>
    match matchOpenTag noiseNames (c :: rest) with
    | some afterOpen =>
      match findCloseTag noiseNames afterOpen with
      | some post => '\n' :: replaceNoiseAux fuel post
      | none => c :: replaceNoiseAux fuel rest
    | none => c :: replaceNoiseAux fuel rest

/-- Models `reNoise.ReplaceAllString(s, "\n")`. -/
def replaceNoise (l : List Char) : List Char :=
  replaceNoiseAux l.length l

/-- Matches `</?name[^>]*>` for one of the block names at the head of the
list and returns the remainder after the `>`. -/
def matchBlockTag : List Char → Option (List Char)
  | '<' :: rest =>
    let afterSlash := match rest with | '/' :: r => r | _ => rest
    if blockNames.any (fun n => isPrefixOfCI n afterSlash) then dropThroughGt rest else none
  | _ => none

/-- Fuel-driven scan modeling `reBlocks.ReplaceAllString(s, "\n")`. -/
def replaceBlocksAux : Nat → List Char → List Char
  | 0, l => l
  | _ + 1, [] => []
  | fuel + 1, c :: rest =>
    match matchBlockTag (c :: rest) with
    | some post => '\n' :: replaceBlocksAux fuel post
    | none => c :: replaceBlocksAux fuel rest

/-- Models `reBlocks.ReplaceAllString(s, "\n")`. -/
def replaceBlocks (l : List Char) : List Char :=
  replaceBlocksAux l.length l

/-- Matches `<[^>]+>` at the head of the list: a `<`, at least one non-`>`
character, then the first `>`. -/
def matchAnyTag : List Char → Option (List Char)
  | '<' :: c :: rest => if c = '>' then none else dropThroughGt (c :: rest)
  | _ => none

/-- Fuel-driven scan modeling `reTags.ReplaceAllString(s, " ")`. -/
def replaceTagsAux : Nat → List Char → List Char
  | 0, l => l
  | _ + 1, [] => []
  | fuel + 1, c :: rest =>
    match matchAnyTag (c :: rest) with
    | some post => ' ' :: replaceTagsAux fuel post
    | none => c :: replaceTagsAux fuel rest

/-- Models `reTags.ReplaceAllString(s, " ")`. -/
def replaceTags (l : List Char) : List Char :=
  replaceTagsAux l.length l

/-- Models `html.UnescapeString` restricted to the five basic named
character references and decimal numeric references; the full HTML5 entity
table (and the semicolon-less legacy forms) is not exercised by any claim. -/
def matchEntity (l : List Char) : Option (Char × List Char) :=
  if ("lt;".toList).isPrefixOf l then some ('<', l.drop 3)
  else if ("gt;".toList).isPrefixOf l then some ('>', l.drop 3)
  else if ("amp;".toList).isPrefixOf l then some ('&', l.drop 4)
  else if ("quot;".toList).isPrefixOf l then some ('"', l.drop 5)
  else if ("apos;".toList).isPrefixOf l then some ('\'', l.drop 5)
  else
    match l with
    | '#' :: rest =>
      let digits := rest.takeWhile Char.isDigit
      match rest.drop digits.length with
      | ';' :: post => if digits.isEmpty then none else some (Char.ofNat (digitsVal digits), post)
      | _ => none
    | _ => none

/-- Fuel-driven scan applying `matchEntity` at each `&`. -/
def unescapeAux : Nat → List Char → List Char
  | 0, l => l
  | _ + 1, [] => []
  | fuel + 1, c :: rest =>
    if c = '&' then
      match matchEntity rest with
      | some (e, post) => e :: unescapeAux fuel post
      | none => c :: unescapeAux fuel rest
    else c :: unescapeAux fuel rest

/-- Models `html.UnescapeString` (see `matchEntity` for the modeled scope). -/
def unescapeString (l : List Char) : List Char :=
  unescapeAux l.length l

/-- Counts the leading newlines of a list. -/
def countLeadNL : List Char → Nat
  | '\n' :: rest => countLeadNL rest + 1
  | _ => 0

/-- Drops the leading newlines of a list. -/
def dropLeadNL : List Char → List Char
  | '\n' :: rest => dropLeadNL rest
  | l => l

/-- Fuel-driven scan modeling `reMultiNL.ReplaceAllString(s, "\n\n")` with
`reMultiNL = \n{3,}`: every run of three or more newlines collapses to two. -/
def collapseNLAux : Nat → List Char → List Char
  | 0, l => l
  | _ + 1, [] => []
  | fuel + 1, c :: rest =>
    if c = '\n' then
      if countLeadNL rest + 1 ≥ 3 then '\n' :: '\n' :: collapseNLAux fuel (dropLeadNL rest)
      else c :: collapseNLAux fuel rest
    else c :: collapseNLAux fuel rest

/-- Models `reMultiNL.ReplaceAllString(s, "\n\n")`. -/
def collapseNL (l : List Char) : List Char :=
  collapseNLAux l.length l

/-- Scans for the first `<title[^>]*>`, then takes the (non-greedy) content
up to the first `</title>`; models `reTitle.FindStringSubmatch`'s capture. -/
def findTitle : List Char → Option (List Char)
  | [] => none
  | c :: rest =>
    match matchOpenTag ["title".toList] (c :: rest) with
    | some afterOpen =>
      match splitSubCI "</title>".toList afterOpen with
      | some (inner, _) => some inner
      | none => findTitle rest
    | none => findTitle rest

/-- Models `extractTitle` from `main.go`. -/
def extractTitle (htmlDoc : String) : String :=
  match findTitle htmlDoc.toList with
  | none => ""
  | some inner => cleanLine (String.mk inner)

/-- Models `extractReadableText` from `main.go`. -/
def extractReadableText (htmlDoc : String) : String :=
  let s := replaceComments htmlDoc.toList
  let s := replaceNoise s
  let s := replaceBlocks s
  let s := replaceTags s
  let s := unescapeString s
  let s := s.filter (fun c => c ≠ '\r')
  let lines := splitOnChar '\n' s
  let cleaned := (lines.map (fun l => cleanLine (String.mk l))).filter (fun l => l ≠ "")
  if cleaned.isEmpty then ""
  else goTrimSpaceStr (String.mk (collapseNL (String.intercalate "\n\n" cleaned).toList))

/-- Abstract outcome of the readability library on one document: `none`
models a `FromReader` (or URL-parse) failure; `rendered = none` models a
`RenderText` failure after the title was already read.  The library is
third-party code, so its behavior is a parameter of the model; the wrapper
logic of `tryReadability` in `main.go` is modeled exactly. -/
structure Article where
  title : String
  rendered : Option String

/-- Models `tryReadability` from `main.go` over an abstract readability
outcome (the `pageURL` argument only influences the library internals and
is absorbed into the oracle). -/
def tryReadability (orac : String → Option Article) (htmlDoc : String) : String × String :=
  match orac htmlDoc with
  | none => ("", "")
  | some article =>
    let t := cleanLine article.title
    let title := if t != "" then t else ""
    match article.rendered with
    | none => (title, "")
    | some s => (title, goTrimSpaceStr s)

/-- Model of one HTTP response: the status code, the parsed `Location`
header when the response is a redirect (already resolved against the
request URL, as `req.URL.Parse` does), and the body. -/
structure HTTPResp where
  status : Nat
  location : Option GoURL
  body : String
  deriving DecidableEq, Repr

/-- Abstract network and library environment of one fetch: DNS answers
(`none` models a resolution error), TCP reachability per address and port,
the server's response per URL, and the readability outcome per document.
Every fetch is a pure function of a `World`. -/
structure World where
  dns : String → Option (List IPAddr)
  connect : IPAddr → String → Bool
  respond : GoURL → HTTPResp
  readability : String → Option Article

/-- Models the candidate loop of the pinned dialer: connection attempts in
resolution order, stopping at the first success; when every attempt fails
the last underlying error is returned (a connection failure).  The second
component records every address actually dialed. -/
def tryConnect (w : World) (port : String) : List IPAddr → Except FetchError Unit × List IPAddr
  | [] => (.error .connectionFailure, [])
  | ip :: rest =>
    if w.connect ip port then (.ok (), [ip])
    else
      let r := tryConnect w port rest
      (r.1, ip :: r.2)

/-- Models the `DialContext` closure installed by `newSafeContentClient`:
a literal-IP host is checked against the block policy and dialed directly;
a hostname is resolved, blocked addresses are discarded, an empty allowed
set fails without dialing, and otherwise the allowed candidates are tried
in order.  The second component records every address actually dialed. -/
def dialSafe (w : World) (host port : String) : Except FetchError Unit × List IPAddr :=
  match parseIP host with
  | some ip =>
    if isBlockedIP (some ip) then (.error (.blockedIP ip), [])
    else if w.connect ip port then (.ok (), [ip])
    else (.error .connectionFailure, [ip])
  | none =>
    match w.dns host with
    | none => (.error (.dnsFailure host), [])
    | some ips =>
      let allowed := ips.filter (fun ip => !isBlockedIP (some ip))
      if allowed.isEmpty then (.error (.allCandidatesBlocked host), [])
      else tryConnect w port allowed

/-- Effective dial port of a request URL (`net/http` adds the scheme's
default port when the URL carries none). -/
def effectivePort (u : GoURL) : String :=
  if u.port == "" then (if u.scheme == "https" then "443" else "80") else u.port

/-- Statuses the Go HTTP client follows for a GET request
(`redirectBehavior` in `net/http`). -/
def isRedirectStatus (s : Nat) : Bool :=
  s == 301 || s == 302 || s == 303 || s == 307 || s == 308

/-- Observable outcome of the client's request loop: the final response or
error, every address the dialer attempted, and every request URL issued. -/
structure LoopOut where
  result : Except FetchError HTTPResp
  attempts : List IPAddr
  visited : List GoURL

/-- Models the request/redirect loop of `http.Client.Do` under the
`CheckRedirect` closure of `newSafeContentClient`.  The closure refuses a
redirect once `len(via) >= 10`, where `via` holds every request already
made, the initial one included; `budget` is the number of further requests
the guard still allows, i.e. `10 - len(via)` at the moment the current
request is sent, so the loop starts with budget 9.  On a redirect the guard
first checks the budget, then re-runs the URL validator on the new
location, exactly in the order of the Go closure. -/
def redirectAux (w : World) : Nat → GoURL → LoopOut
  | 0, u =>
    let dr := dialSafe w u.hostname (effectivePort u)
    match dr.1 with
    | .error e => ⟨.error e, dr.2, [u]⟩
    | .ok _ =>
      let resp := w.respond u
      if isRedirectStatus resp.status then
        match resp.location with
        | none => ⟨.error .missingLocation, dr.2, [u]⟩
        | some _ => ⟨.error .tooManyRedirects, dr.2, [u]⟩
      else ⟨.ok resp, dr.2, [u]⟩
  | b + 1, u =>
    let dr := dialSafe w u.hostname (effectivePort u)
    match dr.1 with
    | .error e => ⟨.error e, dr.2, [u]⟩
    | .ok _ =>
      let resp := w.respond u
      if isRedirectStatus resp.status then
        match resp.location with
        | none => ⟨.error .missingLocation, dr.2, [u]⟩
        | some loc =>
          match validateParsed loc with
          | .error e => ⟨.error e, dr.2, [u]⟩
          | .ok loc' =>
            let rest := redirectAux w b loc'
            ⟨rest.result, dr.2 ++ rest.attempts, u :: rest.visited⟩
      else ⟨.ok resp, dr.2, [u]⟩

/-- Models reading the response body through `io.ReadAll(io.LimitReader(_, 8<<20))`;
the body is modeled as a character sequence and the cap applied to it. -/
def capBody (s : String) : String :=
  if s.length ≤ 8 <<< 20 then s else String.mk (s.toList.take (8 <<< 20))

/-- Models the extraction step of `fetchPageContent` (lines 612–618): title
and content each fall back from the readability strategy to the regex
strategy independently, whenever the first yields an empty string. -/
def extractTitleContent (orac : String → Option Article) (htmlDoc : String) : String × String :=
  let tc := tryReadability orac htmlDoc
  let title := if tc.1 == "" then extractTitle htmlDoc else tc.1
  let content := if tc.2 == "" then extractReadableText htmlDoc else tc.2
  (title, content)

/-- Models `fetchPageContent` from `main.go` up to and including the
empty-content check, i.e. everything before the `maxChars` truncation: the
URL is validated, the request loop runs, a non-2xx status fails, the body
is capped and extracted, and empty extracted content returns the error
together with whatever title was already extracted. -/
def fetchExtract (w : World) (raw : RawURL) : String × String × Option FetchError :=
  match validateRemoteFetchURL raw with
  | .error e => ("", "", some e)
  | .ok u =>
    match (redirectAux w 9 u).result with
    | .error e => ("", "", some e)
    | .ok resp =>
      if resp.status < 200 || 300 ≤ resp.status then ("", "", some (.httpStatus resp.status))
      else
        let htmlDoc := capBody resp.body
        let tc := extractTitleContent w.readability htmlDoc
        if goTrimSpaceStr tc.2 == "" then (tc.1, "", some .extractionFailure)
        else (tc.1, tc.2, none)

/-- Models `truncateRunes` from `main.go`; the rune slice `[]rune(s)` is
the code-point list `s.toList`, so truncation never splits a code point. -/
def truncateRunes (s : String) (limit : Int) : String :=
  if limit ≤ 0 then ""
  else
    let r := s.toList
    if (r.length : Int) ≤ limit then s
    else String.mk (r.take limit.toNat)

/-- Models `fetchPageContent` from `main.go`: the result triple
`(title, content, err)`, with the content truncated only when the
configured `maxChars` is positive. -/
def fetchPageContent (w : World) (raw : RawURL) (maxChars : Int) :
    String × String × Option FetchError :=
  match fetchExtract w raw with
  | (t, c, none) => (t, (if 0 < maxChars then truncateRunes c maxChars else c), none)
  | r => r

/-- Ghost observation: every address the pinned dialer attempts during one
`fetchPageContent` run. -/
def fetchAttempts (w : World) (raw : RawURL) : List IPAddr :=
  match validateRemoteFetchURL raw with
  | .error _ => []
  | .ok u => (redirectAux w 9 u).attempts

/-- Ghost observation: every request URL issued during one
`fetchPageContent` run. -/
def fetchVisited (w : World) (raw : RawURL) : List GoURL :=
  match validateRemoteFetchURL raw with
  | .error _ => []
  | .ok u => (redirectAux w 9 u).visited

/-- Benign test document of the spec (§8). -/
def pageDoc : String :=
  "<html><head><title>Foo</title></head><body><p>Hello world</p></body></html>"

/-- Document with an `og:title` meta tag and no textual content; the regex
fallback extracts nothing from it. -/
def metaOnlyDoc : String :=
  "<html><head><meta property=\"og:title\" content=\"Foo\"/></head><body></body></html>"

/-- Hostname of the redirect-chain test world. -/
def chainHost : String := "chain.example"

/-- URL of hop `k` of the redirect-chain test world; the hop index is
encoded in the length of the path. -/
def chainURL (k : Nat) : GoURL :=
  ⟨"http", chainHost, "", String.mk (List.replicate k 'x')⟩

/-- Test world serving a redirect chain of exactly `n` hops:
`chainURL 0 → chainURL 1 → ... → chainURL n`, where `chainURL n` answers
200 with the benign document.  DNS resolves the chain host to one public
address and every connection succeeds. -/
def chainWorld (n : Nat) : World where
  dns h := if h = chainHost then some [.v4 93 184 216 34] else none
  connect _ _ := true
  respond u :=
    if u.rest.length < n then ⟨302, some (chainURL (u.rest.length + 1)), ""⟩
    else ⟨200, none, pageDoc⟩
  readability _ := none

/-- Initial raw URL of the redirect-chain test world. -/
def chainRaw : RawURL := .wellFormed (chainURL 0)

/-- Test world whose hostname resolves only to blocked addresses. -/
def blockedDNSWorld : World where
  dns h := if h = "internal.example" then some [.v4 10 0 0 5, .v4 192 168 1 1] else none
  connect _ _ := true
  respond _ := ⟨200, none, pageDoc⟩
  readability _ := none

/-- Initial URL of the blocked-DNS test world. -/
def blockedDNSRaw : RawURL := .wellFormed ⟨"http", "internal.example", "", "/"⟩

/-- Entry URL of the redirect-to-private test world. -/
def pubURL : GoURL := ⟨"http", "public.example", "", "/"⟩

/-- Test world whose public entry URL redirects to a blocked literal IP. -/
def redirPrivWorld : World where
  dns h := if h = "public.example" then some [.v4 93 184 216 34] else none
  connect _ _ := true
  respond u :=
    if u = pubURL then ⟨302, some ⟨"http", "10.0.0.5", "", "/"⟩, ""⟩
    else ⟨200, none, pageDoc⟩
  readability _ := none

/-- Test world where the readability strategy yields a title but renders no
content, and the fallback also extracts no content. -/
def metaTitleWorld : World where
  dns h := if h = "public.example" then some [.v4 93 184 216 34] else none
  connect _ _ := true
  respond _ := ⟨200, none, metaOnlyDoc⟩
  readability d := if d = metaOnlyDoc then some ⟨"Foo", some ""⟩ else none

/-- Rendering of claim C2's characterization, following the spec's words
strictly: blocked means nil, loopback, unspecified, multicast, link-local
unicast, link-local multicast, or RFC 1918 private (an IPv4-only notion),
plus, for IPv4 only, first octet 0, first octet 224 or greater, and the
shared range 100.64.0.0/10.  Every range is written out arithmetically,
independent of the source's bit-mask formulations. -/
def blockedSpecStrict : Option IPAddr → Prop
  | none => True
  | some (.v4 a b c d) =>
    a = 127 ∨
    (a = 0 ∧ b = 0 ∧ c = 0 ∧ d = 0) ∨
    (224 ≤ a ∧ a ≤ 239) ∨
    (a = 169 ∧ b = 254) ∨
    (a = 224 ∧ b = 0 ∧ c = 0) ∨
    (a = 10 ∨ (a = 172 ∧ 16 ≤ b ∧ b ≤ 31) ∨ (a = 192 ∧ b = 168)) ∨
    a = 0 ∨ 224 ≤ a ∨ (a = 100 ∧ 64 ≤ b ∧ b ≤ 127)
  | some (.v6 bs) =>
    bs = v6LoopbackBytes ∨
    bs = v6ZeroBytes ∨
    (bs.length = 16 ∧ bs.getD 0 0 = 255) ∨
    (bs.length = 16 ∧ bs.getD 0 0 = 254 ∧ 128 ≤ bs.getD 1 0 ∧ bs.getD 1 0 ≤ 191) ∨
    (bs.length = 16 ∧ bs.getD 0 0 = 255 ∧ bs.getD 1 0 % 16 = 2)

instance : DecidablePred blockedSpecStrict := fun x =>
  match x with
  | none => inferInstanceAs (Decidable True)
  | some (.v4 _ _ _ _) => inferInstanceAs (Decidable (_ ∨ _))
  | some (.v6 _) => inferInstanceAs (Decidable (_ ∨ _))

/-- Amended rendering of claim C2's characterization: identical to
`blockedSpecStrict` except that the private clause also covers the IPv6
RFC 4193 unique-local range `fc00::/7`, which the code's `IsPrivate` call
classifies as private alongside the RFC 1918 IPv4 ranges. -/
def blockedSpecAmended (x : Option IPAddr) : Prop :=
  blockedSpecStrict x ∨
    match x with
    | some (.v6 bs) => bs.length = 16 ∧ (bs.getD 0 0 = 252 ∨ bs.getD 0 0 = 253)
    | _ => False

instance : DecidablePred blockedSpecAmended := fun x =>
  match x with
  | none => inferInstanceAs (Decidable (_ ∨ _))
  | some (.v4 _ _ _ _) => inferInstanceAs (Decidable (_ ∨ _))
  | some (.v6 _) => inferInstanceAs (Decidable (_ ∨ _))

/-- Unique-local IPv6 address `fc00::1`, blocked by the code's `IsPrivate`
but outside every RFC 1918 range. -/
def ulaAddr : IPAddr :=
  .v6 [252, 0, 0, 0, 0, 0, 0, 0, 0, 0, 0, 0, 0, 0, 0, 1]

/-- Content of 50,000 characters, opening with 50 multi-byte code points. -/
def longContent : String :=
  String.mk (List.replicate 50 '\u20ac' ++ List.replicate 49950 'a')

theorem if_bool_true (c b : Bool) : (if c then true else b) = (c || b) := by
  cases c <;> simp

set_option maxRecDepth 100000 in
theorem land240_224b : ∀ a, a < 256 →
    ((a &&& 240 == 224) = (decide (224 ≤ a) && decide (a ≤ 239))) := by decide

set_option maxRecDepth 100000 in
theorem land240_16b : ∀ b, b < 256 →
    ((b &&& 240 == 16) = (decide (16 ≤ b) && decide (b ≤ 31))) := by decide

set_option maxRecDepth 100000 in
theorem land192_128b : ∀ b, b < 256 →
    ((b &&& 192 == 128) = (decide (128 ≤ b) && decide (b ≤ 191))) := by decide

set_option maxRecDepth 100000 in
theorem land15_2b : ∀ b, b < 256 → ((b &&& 15 == 2) = (b % 16 == 2)) := by decide

set_option maxRecDepth 100000 in
theorem land254_252b : ∀ a, a < 256 → ((a &&& 254 == 252) = (a == 252 || a == 253)) := by decide

theorem tryConnect_attempts_subset (w : World) (port : String) :
    ∀ ips : List IPAddr, ∀ ip ∈ (tryConnect w port ips).2, ip ∈ ips := by
  intro ips
  induction ips with
  | nil => intro ip h; simp [tryConnect] at h
  | cons hd tl ih =>
    intro ip h
    simp only [tryConnect] at h
    split at h
    · simp at h; simp [h]
    · simp at h
      rcases h with h | h
      · simp [h]
      · exact List.mem_cons_of_mem _ (ih ip h)

theorem dialSafe_attempts_ok (w : World) (host port : String) :
    ∀ ip ∈ (dialSafe w host port).2, isBlockedIP (some ip) = false := by
  intro ip h
  cases hp : parseIP host with
  | some ipl =>
    simp only [dialSafe, hp] at h
    split at h
    · simp at h
    · split at h <;> simp at h <;> subst h <;> simp_all
  | none =>
    simp only [dialSafe, hp] at h
    cases hd : w.dns host with
    | none => simp [hd] at h
    | some ips =>
      simp only [hd] at h
      split at h
      · simp at h
      · have hsub := tryConnect_attempts_subset w port _ ip h
        have := List.of_mem_filter hsub
        simpa using this

theorem redirectAux_attempts_ok (w : World) :
    ∀ (b : Nat) (u : GoURL), ∀ ip ∈ (redirectAux w b u).attempts,
      isBlockedIP (some ip) = false := by
  intro b
  induction b with
  | zero =>
    intro u ip h
    simp only [redirectAux] at h
    cases hd : (dialSafe w u.hostname (effectivePort u)).1 with
    | error e => simp only [hd] at h; exact dialSafe_attempts_ok w _ _ ip h
    | ok v =>
      simp only [hd] at h
      split at h
      · cases hloc : (w.respond u).location with
        | none => simp only [hloc] at h; exact dialSafe_attempts_ok w _ _ ip h
        | some loc => simp only [hloc] at h; exact dialSafe_attempts_ok w _ _ ip h
      · exact dialSafe_attempts_ok w _ _ ip h
  | succ b ih =>
    intro u ip h
    simp only [redirectAux] at h
    cases hd : (dialSafe w u.hostname (effectivePort u)).1 with
    | error e => simp only [hd] at h; exact dialSafe_attempts_ok w _ _ ip h
    | ok v =>
      simp only [hd] at h
      split at h
      · cases hloc : (w.respond u).location with
        | none => simp only [hloc] at h; exact dialSafe_attempts_ok w _ _ ip h
        | some loc =>
          simp only [hloc] at h
          cases hv : validateParsed loc with
          | error e => simp only [hv] at h; exact dialSafe_attempts_ok w _ _ ip h
          | ok loc2 =>
            simp only [hv, List.mem_append] at h
            rcases h with h | h
            · exact dialSafe_attempts_ok w _ _ ip h
            · exact ih _ ip h
      · exact dialSafe_attempts_ok w _ _ ip h

theorem validateParsed_ok_eq {u v : GoURL} (h : validateParsed u = .ok v) : v = u := by
  simp only [validateParsed, validateRemoteFetchURL] at h
  split at h
  · cases h
  · split at h
    · cases h
    · split at h
      · split at h
        · cases h
        · cases h; rfl
      · cases h; rfl

theorem redirectAux_visited_valid (w : World) :
    ∀ (b : Nat) (u : GoURL), validateParsed u = .ok u →
      ∀ v ∈ (redirectAux w b u).visited, validateParsed v = .ok v := by
  intro b
  induction b with
  | zero =>
    intro u hu v hv
    simp only [redirectAux] at hv
    cases hd : (dialSafe w u.hostname (effectivePort u)).1 with
    | error e => simp only [hd] at hv; simp at hv; subst hv; exact hu
    | ok x =>
      simp only [hd] at hv
      split at hv
      · cases hloc : (w.respond u).location with
        | none => simp only [hloc] at hv; simp at hv; subst hv; exact hu
        | some loc => simp only [hloc] at hv; simp at hv; subst hv; exact hu
      · simp at hv; subst hv; exact hu
  | succ b ih =>
    intro u hu v hv
    simp only [redirectAux] at hv
    cases hd : (dialSafe w u.hostname (effectivePort u)).1 with
    | error e => simp only [hd] at hv; simp at hv; subst hv; exact hu
    | ok x =>
      simp only [hd] at hv
      split at hv
      · cases hloc : (w.respond u).location with
        | none => simp only [hloc] at hv; simp at hv; subst hv; exact hu
        | some loc =>
          simp only [hloc] at hv
          cases hval : validateParsed loc with
          | error e => simp only [hval] at hv; simp at hv; subst hv; exact hu
          | ok loc2 =>
            simp only [hval] at hv
            simp only [List.mem_cons] at hv
            rcases hv with hv | hv
            · subst hv; exact hu
            · have heq : loc2 = loc := validateParsed_ok_eq hval
              subst heq
              exact ih loc2 hval v hv
      · simp at hv; subst hv; exact hu

theorem redirectAux_all_blocked (w : World) (b : Nat) (u : GoURL) (ips : List IPAddr)
    (hp : parseIP u.hostname = none) (hd : w.dns u.hostname = some ips)
    (hblk : ∀ ip ∈ ips, isBlockedIP (some ip) = true) :
    redirectAux w b u = ⟨.error (.allCandidatesBlocked u.hostname), [], [u]⟩ := by
  have hdial : dialSafe w u.hostname (effectivePort u) =
      (.error (.allCandidatesBlocked u.hostname), []) := by
    simp only [dialSafe, hp, hd]
    have hfil : ips.filter (fun ip => !isBlockedIP (some ip)) = [] := by
      simp only [List.filter_eq_nil_iff]
      intro ip hip
      simp [hblk ip hip]
    simp [hfil]
  cases b <;> simp only [redirectAux, hdial]

theorem redirectAux_validator_error (w : World) (b : Nat) (u : GoURL) (loc : GoURL)
    (e : FetchError)
    (hdial : (dialSafe w u.hostname (effectivePort u)).1 = .ok ())
    (hst : isRedirectStatus (w.respond u).status = true)
    (hloc : (w.respond u).location = some loc)
    (hval : validateParsed loc = .error e) :
    (redirectAux w (b + 1) u).result = .error e := by
  simp only [redirectAux, hdial, hst, hloc, hval, if_true]

theorem redirectAux_budget_exhausted (w : World) (u : GoURL) (loc : GoURL)
    (hdial : (dialSafe w u.hostname (effectivePort u)).1 = .ok ())
    (hst : isRedirectStatus (w.respond u).status = true)
    (hloc : (w.respond u).location = some loc) :
    (redirectAux w 0 u).result = .error .tooManyRedirects := by
  simp only [redirectAux, hdial, hst, hloc, if_true]

theorem fetchExtract_error_shape (w : World) (raw : RawURL) (t c : String) (e : FetchError)
    (h : fetchExtract w raw = (t, c, some e)) :
    c = "" ∧ (t = "" ∨ e = .extractionFailure) := by
  unfold fetchExtract at h
  split at h
  · cases h; exact ⟨rfl, Or.inl rfl⟩
  · split at h
    · cases h; exact ⟨rfl, Or.inl rfl⟩
    · split at h
      · cases h; exact ⟨rfl, Or.inl rfl⟩
      · dsimp only at h
        split at h
        · cases h; exact ⟨rfl, Or.inr rfl⟩
        · cases h

theorem truncateRunes_length_le (s : String) (m : Int) (hm : 0 < m) :
    ((truncateRunes s m).toList.length : Int) ≤ m := by
  unfold truncateRunes
  split
  · omega
  · dsimp only
    split
    · omega
    · simp only [String.toList, List.length_take] at *
      omega

theorem truncateRunes_exact (s : String) (m : Int) (hm : 0 < m)
    (hlen : m.toNat < s.toList.length) :
    truncateRunes s m = String.mk (s.toList.take m.toNat) ∧
      (truncateRunes s m).toList.length = m.toNat := by
  unfold truncateRunes
  split
  · omega
  · dsimp only
    split
    · simp only [String.toList] at *
      omega
    · refine ⟨rfl, ?_⟩
      simp only [String.toList, List.length_take] at *
      omega

theorem fetchPageContent_zero_eq (w : World) (raw : RawURL) :
    fetchPageContent w raw 0 = fetchExtract w raw := by
  unfold fetchPageContent
  rcases h : fetchExtract w raw with ⟨t, c, e⟩
  cases e <;> simp

/-- C1: when the target hostname of a fetch resolves only to addresses the
block policy classifies as blocked, the fetch fails with the
all-candidates-blocked error and the dialer attempts no connection at all;
moreover, across every fetch, every address the pinned dialer ever attempts
to connect to is classified unblocked by the policy. -/
theorem c1_blocked_resolution_never_dialed :
    (∀ (w : World) (b : Nat) (u : GoURL), ∀ ip ∈ (redirectAux w b u).attempts,
        isBlockedIP (some ip) = false) ∧
    (∀ (w : World) (raw : RawURL) (u : GoURL) (m : Int) (ips : List IPAddr),
      validateRemoteFetchURL raw = .ok u →
      parseIP u.hostname = none →
      w.dns u.hostname = some ips →
      (∀ ip ∈ ips, isBlockedIP (some ip) = true) →
      fetchPageContent w raw m = ("", "", some (.allCandidatesBlocked u.hostname)) ∧
      fetchAttempts w raw = []) := by
  constructor
  · exact fun w b u => redirectAux_attempts_ok w b u
  · intro w raw u m ips hv hp hd hblk
    have hloop := redirectAux_all_blocked w 9 u ips hp hd hblk
    constructor
    · simp only [fetchPageContent, fetchExtract, hv, hloop]
    · simp only [fetchAttempts, hv, hloop]

/-- Witness for C1 at a concrete world: `internal.example` resolves to
`10.0.0.5` and `192.168.1.1`, both blocked; the fetch fails with
AllCandidatesBlocked and the dialer attempts nothing. -/
theorem c1_blocked_resolution_never_dialed_witness :
    parseIP "internal.example" = none ∧
    (∀ ip ∈ [IPAddr.v4 10 0 0 5, IPAddr.v4 192 168 1 1], isBlockedIP (some ip) = true) ∧
    fetchPageContent blockedDNSWorld blockedDNSRaw 100 =
      ("", "", some (.allCandidatesBlocked "internal.example")) ∧
    fetchAttempts blockedDNSWorld blockedDNSRaw = [] := by
  refine ⟨by decide, by decide, ?_, ?_⟩
  · exact (c1_blocked_resolution_never_dialed.2 blockedDNSWorld blockedDNSRaw
      ⟨"http", "internal.example", "", "/"⟩ 100 [IPAddr.v4 10 0 0 5, IPAddr.v4 192 168 1 1]
      rfl (by decide) rfl (by decide)).1
  · exact (c1_blocked_resolution_never_dialed.2 blockedDNSWorld blockedDNSRaw
      ⟨"http", "internal.example", "", "/"⟩ 100 [IPAddr.v4 10 0 0 5, IPAddr.v4 192 168 1 1]
      rfl (by decide) rfl (by decide)).2

/-- Counterexample to C2 as stated: the unique-local IPv6 address `fc00::1`
is classified blocked by `isBlockedIP` (the code's `IsPrivate` covers
RFC 4193 `fc00::/7`), yet it satisfies none of the conditions the claim
lists — in particular it is not in any RFC 1918 private range, so the
claim's "for every other address it returns false" fails at it. -/
theorem c2_blocklist_characterization_counterexample :
    isBlockedIP (some ulaAddr) = true ∧ ¬ blockedSpecStrict (some ulaAddr) ∧
      WFopt (some ulaAddr) := by
  refine ⟨by decide, by decide, by decide⟩

/-- C2 (amended): on well-formed addresses, `isBlockedIP` returns true
exactly for nil, loopback, unspecified, multicast, link-local (unicast or
multicast), private — RFC 1918 for IPv4 and RFC 4193 unique-local
`fc00::/7` for IPv6 — and, for IPv4 only, first octet 0, first octet 224 or
greater, and 100.64.0.0/10; every other address is allowed. -/
theorem c2_blocklist_characterization (x : Option IPAddr) (h : WFopt x) :
    isBlockedIP x = true ↔ blockedSpecAmended x := by
  rcases x with _ | ip
  · simp [isBlockedIP, blockedSpecAmended, blockedSpecStrict]
  rcases ip with ⟨a, b, c, d⟩ | bs
  · obtain ⟨ha, hb, hc, hd⟩ := h
    simp only [isBlockedIP, IPAddr.isLoopback, IPAddr.isUnspecified, IPAddr.isMulticast,
      IPAddr.isLinkLocalUnicast, IPAddr.isLinkLocalMulticast, IPAddr.isPrivate,
      if_bool_true, Bool.or_false]
    rw [land240_224b a ha, land240_16b b hb]
    simp only [blockedSpecAmended, blockedSpecStrict, Bool.or_eq_true, Bool.and_eq_true,
      beq_iff_eq, decide_eq_true_eq, ge_iff_le, or_false]
    itauto
  · obtain ⟨hlen, hbytes⟩ := h
    rcases bs with _ | ⟨b0, _ | ⟨b1, t⟩⟩
    · simp at hlen
    · simp at hlen
    · have hb0 : b0 < 256 := hbytes b0 (by simp)
      have hb1 : b1 < 256 := hbytes b1 (by simp)
      simp only [isBlockedIP, IPAddr.isLoopback, IPAddr.isUnspecified, IPAddr.isMulticast,
        IPAddr.isLinkLocalUnicast, IPAddr.isLinkLocalMulticast, IPAddr.isPrivate,
        if_bool_true, Bool.or_false, List.getD_cons_zero, List.getD_cons_succ]
      rw [land192_128b b1 hb1, land15_2b b1 hb1, land254_252b b0 hb0]
      simp only [blockedSpecAmended, blockedSpecStrict, Bool.or_eq_true, Bool.and_eq_true,
        beq_iff_eq, decide_eq_true_eq, ge_iff_le, or_false, List.getD_cons_zero,
        List.getD_cons_succ]
      itauto

/-- Witness for C2 at the carrier-grade-NAT address `100.64.0.5`: it is
well-formed, the amended characterization holds of it, and the code indeed
blocks it. -/
theorem c2_blocklist_characterization_witness :
    WFopt (some (IPAddr.v4 100 64 0 5)) ∧
      isBlockedIP (some (IPAddr.v4 100 64 0 5)) = true := by
  refine ⟨by decide, ?_⟩
  exact (c2_blocklist_characterization (some (IPAddr.v4 100 64 0 5)) (by decide)).mpr
    (by decide)

/-- C6: for positive `maxChars` and input longer than `maxChars` code
points, truncation returns exactly the first `maxChars` code points; since
it operates on the rune list, no multi-byte character is ever split. -/
theorem c6_truncate_exact (s : String) (m : Int) (hm : 0 < m)
    (hlen : m.toNat < s.toList.length) :
    truncateRunes s m = String.mk (s.toList.take m.toNat) ∧
      (truncateRunes s m).toList.length = m.toNat :=
  truncateRunes_exact s m hm hlen

/-- Witness for C6: a 50,000-character content (with multi-byte characters
at the boundary region) truncated to `maxChars = 100` has exactly 100
characters. -/
theorem c6_truncate_exact_witness :
    0 < (100 : Int) ∧ (100 : Int).toNat < longContent.toList.length ∧
      (truncateRunes longContent 100).toList.length = (100 : Int).toNat := by
  have hlen : longContent.toList.length = 50000 := by
    show (List.replicate 50 '€' ++ List.replicate 49950 'a').length = 50000
    rw [List.length_append, List.length_replicate, List.length_replicate]
  refine ⟨by decide, by rw [hlen]; decide, ?_⟩
  exact (c6_truncate_exact longContent 100 (by decide) (by rw [hlen]; decide)).2

/-- Counterexample to C7 as stated: `truncateRunes` with limit 0 returns
the empty string, not its input. -/
theorem c7_zero_limit_counterexample : truncateRunes "abc" 0 ≠ "abc" := by decide

/-- C7 (amended): `truncateRunes` with limit 0 returns the empty string;
the caller only invokes truncation for a positive limit, so a fetch
configured with `maxChars = 0` returns its extracted content unmodified
regardless of length. -/
theorem c7_zero_limit_unmodified :
    (∀ s : String, truncateRunes s 0 = "") ∧
    (∀ (w : World) (raw : RawURL), fetchPageContent w raw 0 = fetchExtract w raw) := by
  constructor
  · intro s
    unfold truncateRunes
    simp
  · exact fetchPageContent_zero_eq

/-- C10: for every fetch with a positive `maxChars` that succeeds, the
returned content has at most `maxChars` code points. -/
theorem c10_content_bounded (w : World) (raw : RawURL) (m : Int) (t c : String)
    (hm : 0 < m) (h : fetchPageContent w raw m = (t, c, none)) :
    (c.toList.length : Int) ≤ m := by
  unfold fetchPageContent at h
  rcases hfe : fetchExtract w raw with ⟨t', c', e'⟩
  rw [hfe] at h
  cases e' with
  | none =>
    simp only [Prod.mk.injEq] at h
    obtain ⟨-, hc, -⟩ := h
    rw [if_pos hm] at hc
    rw [← hc]
    exact truncateRunes_length_le c' m hm
  | some e =>
    simp only [Prod.mk.injEq] at h
    exact absurd h.2.2 (by simp)

/-- Witness for C10: a successful fetch of the benign page with
`maxChars = 100` returns content of at most 100 code points. -/
theorem c10_content_bounded_witness :
    0 < (100 : Int) ∧
    fetchPageContent (chainWorld 0) chainRaw 100 = ("Foo", "Foo\n\nHello world", none) ∧
    (("Foo\n\nHello world" : String).toList.length : Int) ≤ 100 := by
  refine ⟨by decide, by decide, ?_⟩
  exact c10_content_bounded (chainWorld 0) chainRaw 100 "Foo" "Foo\n\nHello world"
    (by decide) (by decide)

/-- C3: every request URL visited during one fetch passes the URL validator
at the moment it is issued; a redirect hop whose target fails validation
(budget permitting, so the hop-count guard is not the cause) makes the
fetch from that point fail with the validator's own error; concretely, a
public entry URL redirecting to the blocked literal `10.0.0.5` makes the
whole fetch fail with the blocked-address error. -/
theorem c3_redirects_revalidated :
    (∀ (w : World) (raw : RawURL) (u : GoURL),
      validateRemoteFetchURL raw = .ok u →
      ∀ v ∈ fetchVisited w raw, validateParsed v = .ok v) ∧
    (∀ (w : World) (b : Nat) (u : GoURL) (loc : GoURL) (e : FetchError),
      (dialSafe w u.hostname (effectivePort u)).1 = .ok () →
      isRedirectStatus (w.respond u).status = true →
      (w.respond u).location = some loc →
      validateParsed loc = .error e →
      (redirectAux w (b + 1) u).result = .error e) ∧
    fetchPageContent redirPrivWorld (.wellFormed pubURL) 0 =
      ("", "", some (.blockedIP (.v4 10 0 0 5))) := by
  refine ⟨?_, redirectAux_validator_error, by decide⟩
  intro w raw u hv v hvis
  unfold fetchVisited at hvis
  rw [hv] at hvis
  have hu : validateParsed u = .ok u := by
    cases raw with
    | malformed s => cases hv
    | wellFormed u' =>
      have : u = u' := validateParsed_ok_eq hv
      subst this
      exact hv
  exact redirectAux_visited_valid w 9 u hu v hvis

/-- Witness for C3: in the redirect-to-private world the hop from the
public entry URL to `http://10.0.0.5/` fails with the validator's
blocked-address error. -/
theorem c3_redirects_revalidated_witness :
    (dialSafe redirPrivWorld pubURL.hostname (effectivePort pubURL)).1 = .ok () ∧
    isRedirectStatus (redirPrivWorld.respond pubURL).status = true ∧
    (redirPrivWorld.respond pubURL).location = some ⟨"http", "10.0.0.5", "", "/"⟩ ∧
    validateParsed ⟨"http", "10.0.0.5", "", "/"⟩ = .error (.blockedIP (.v4 10 0 0 5)) ∧
    (redirectAux redirPrivWorld 9 pubURL).result = .error (.blockedIP (.v4 10 0 0 5)) := by
  refine ⟨rfl, by decide, rfl, rfl, ?_⟩
  exact c3_redirects_revalidated.2.1 redirPrivWorld 8 pubURL ⟨"http", "10.0.0.5", "", "/"⟩
    (.blockedIP (.v4 10 0 0 5)) rfl (by decide) rfl rfl

/-- Counterexample to C4 as stated: the chain world with exactly 10
redirect hops has a final target that is directly fetchable and unblocked,
yet the chained fetch fails with TooManyRedirects — the client stops after
10 consecutive requests (initial plus 9 redirects), because `via` in its
redirect guard already contains the initial request. -/
theorem c4_redirect_cap_counterexample :
    fetchPageContent (chainWorld 10) chainRaw 0 = ("", "", some .tooManyRedirects) ∧
    fetchPageContent (chainWorld 10) (.wellFormed (chainURL 10)) 0 =
      ("Foo", "Foo\n\nHello world", none) := by
  exact ⟨by decide, by decide⟩

/-- C4 (amended): a fetch that requests a 10th redirect hop fails with
TooManyRedirects — the guard refuses once 10 requests (the initial plus 9
redirects) have been made — and a redirect chain of exactly 9 hops succeeds
when the final target is otherwise fetchable and unblocked. -/
theorem c4_redirect_cap :
    (∀ (w : World) (u : GoURL) (loc : GoURL),
      (dialSafe w u.hostname (effectivePort u)).1 = .ok () →
      isRedirectStatus (w.respond u).status = true →
      (w.respond u).location = some loc →
      (redirectAux w 0 u).result = .error .tooManyRedirects) ∧
    fetchPageContent (chainWorld 9) chainRaw 0 = ("Foo", "Foo\n\nHello world", none) ∧
    fetchPageContent (chainWorld 10) chainRaw 0 = ("", "", some .tooManyRedirects) := by
  exact ⟨fun w u loc hd hs hl => redirectAux_budget_exhausted w u loc hd hs hl,
    by decide, by decide⟩

/-- Witness for C4: the 10th request of the 10-hop chain world receives a
redirect and the guard refuses it. -/
theorem c4_redirect_cap_witness :
    (dialSafe (chainWorld 10) (chainURL 9).hostname (effectivePort (chainURL 9))).1 = .ok () ∧
    isRedirectStatus ((chainWorld 10).respond (chainURL 9)).status = true ∧
    ((chainWorld 10).respond (chainURL 9)).location = some (chainURL 10) ∧
    (redirectAux (chainWorld 10) 0 (chainURL 9)).result = .error .tooManyRedirects := by
  refine ⟨rfl, by decide, by decide, ?_⟩
  exact c4_redirect_cap.1 (chainWorld 10) (chainURL 9) (chainURL 10) rfl (by decide) (by decide)

theorem validateParsed_error_iff (u : GoURL) :
    (∃ e, validateParsed u = .error e) ↔
      ((u.scheme ≠ "http" ∧ u.scheme ≠ "https") ∨ u.hostname = "" ∨
        ∃ ip, parseIP u.hostname = some ip ∧ isBlockedIP (some ip) = true) := by
  by_cases hs : u.scheme = "http" ∨ u.scheme = "https"
  · have hsb : (u.scheme != "http" && u.scheme != "https") = false := by
      rcases hs with h | h <;> simp [h]
    have hsr : ¬(u.scheme ≠ "http" ∧ u.scheme ≠ "https") := by
      rcases hs with h | h <;> simp [h]
    by_cases hh : u.hostname = ""
    · simp [validateParsed, validateRemoteFetchURL, hsb, hh]
    · have hhb : (u.hostname == "") = false := by simp [hh]
      cases hp : parseIP u.hostname with
      | none =>
        simp only [validateParsed, validateRemoteFetchURL, hsb, hhb, hp, Bool.false_eq_true,
          if_false]
        constructor
        · rintro ⟨e, he⟩; cases he
        · rintro (h | h | ⟨ip, hip, -⟩)
          · exact absurd h hsr
          · exact absurd h hh
          · exact Option.noConfusion hip
      | some ip =>
        by_cases hb : isBlockedIP (some ip) = true
        · simp only [validateParsed, validateRemoteFetchURL, hsb, hhb, hp, hb,
            Bool.false_eq_true, if_false, if_true]
          constructor
          · intro _; exact Or.inr (Or.inr ⟨ip, rfl, hb⟩)
          · intro _; exact ⟨.blockedIP ip, rfl⟩
        · simp only [validateParsed, validateRemoteFetchURL, hsb, hhb, hp, hb,
            Bool.false_eq_true, if_false]
          constructor
          · rintro ⟨e, he⟩; cases he
          · rintro (h | h | ⟨ip', hip, hbi⟩)
            · exact absurd h hsr
            · exact absurd h hh
            · injection hip with hip'
              subst hip'
              exact absurd hbi hb
  · have hsb : (u.scheme != "http" && u.scheme != "https") = true := by
      push_neg at hs
      simp [hs.1, hs.2]
    have hsr : u.scheme ≠ "http" ∧ u.scheme ≠ "https" := by
      push_neg at hs
      exact hs
    simp only [validateParsed, validateRemoteFetchURL, hsb, if_true]
    constructor
    · intro _; exact Or.inl hsr
    · intro _; exact ⟨.invalidScheme u.scheme, rfl⟩

/-- C5: validation fails exactly when the URL is malformed, its scheme is
neither http nor https, its host is empty, or its host is a literal IP the
block policy classifies as blocked; a validation failure reaches the caller
before any resolution or dial is attempted; and the seven literal targets
of the spec are all rejected. -/
theorem c5_validate_characterization :
    (∀ u : GoURL, (∃ e, validateParsed u = .error e) ↔
      ((u.scheme ≠ "http" ∧ u.scheme ≠ "https") ∨ u.hostname = "" ∨
        ∃ ip, parseIP u.hostname = some ip ∧ isBlockedIP (some ip) = true)) ∧
    (∀ s, validateRemoteFetchURL (.malformed s) = .error (.invalidURL s)) ∧
    (∀ (w : World) (raw : RawURL) (m : Int) (e : FetchError),
      validateRemoteFetchURL raw = .error e →
      fetchPageContent w raw m = ("", "", some e) ∧ fetchAttempts w raw = []) ∧
    (validateParsed ⟨"http", "127.0.0.1", "", "/"⟩ = .error (.blockedIP (.v4 127 0 0 1)) ∧
     validateParsed ⟨"http", "169.254.1.1", "", "/"⟩ = .error (.blockedIP (.v4 169 254 1 1)) ∧
     validateParsed ⟨"http", "10.0.0.5", "", "/"⟩ = .error (.blockedIP (.v4 10 0 0 5)) ∧
     validateParsed ⟨"http", "192.168.1.1", "", "/"⟩ = .error (.blockedIP (.v4 192 168 1 1)) ∧
     validateParsed ⟨"http", "100.64.0.5", "", "/"⟩ = .error (.blockedIP (.v4 100 64 0 5)) ∧
     validateParsed ⟨"http", "0.0.0.0", "", "/"⟩ = .error (.blockedIP (.v4 0 0 0 0)) ∧
     validateParsed ⟨"http", "224.0.0.1", "", "/"⟩ = .error (.blockedIP (.v4 224 0 0 1))) := by
  refine ⟨validateParsed_error_iff, fun s => rfl, ?_, rfl, rfl, rfl, rfl, rfl, rfl, rfl⟩
  intro w raw m e hv
  constructor
  · simp only [fetchPageContent, fetchExtract, hv]
  · simp only [fetchAttempts, hv]

/-- Witness for C5: the fetch of a malformed raw URL surfaces the
validator's error with no dial attempt. -/
theorem c5_validate_characterization_witness :
    validateRemoteFetchURL (.malformed "http//bad") = .error (.invalidURL "http//bad") ∧
    fetchPageContent (chainWorld 0) (.malformed "http//bad") 7 =
      ("", "", some (.invalidURL "http//bad")) ∧
    fetchAttempts (chainWorld 0) (.malformed "http//bad") = [] := by
  refine ⟨rfl, ?_, ?_⟩
  · exact (c5_validate_characterization.2.2.1 (chainWorld 0) (.malformed "http//bad") 7
      (.invalidURL "http//bad") rfl).1
  · exact (c5_validate_characterization.2.2.1 (chainWorld 0) (.malformed "http//bad") 7
      (.invalidURL "http//bad") rfl).2

/-- C8: when the readability strategy yields nothing for the benign
document, extraction falls back to the regex strategy and yields title
`"Foo"` and content containing the substring `"Hello world"`; and in
general, for every document and readability outcome, the title and the
content are each taken from the readability strategy when it yields a
non-empty value and from the regex fallback otherwise, independently of
each other. -/
theorem c8_extraction_pipeline :
    (∀ orac : String → Option Article, tryReadability orac pageDoc = ("", "") →
      extractTitleContent orac pageDoc = ("Foo", "Foo\n\nHello world") ∧
      ∃ pre post, pre ++ "Hello world".toList ++ post =
        ("Foo\n\nHello world" : String).toList) ∧
    (∀ (orac : String → Option Article) (doc : String),
      (((extractTitleContent orac doc).1 = (tryReadability orac doc).1 ∧
          (tryReadability orac doc).1 ≠ "") ∨
        ((extractTitleContent orac doc).1 = extractTitle doc ∧
          (tryReadability orac doc).1 = "")) ∧
      (((extractTitleContent orac doc).2 = (tryReadability orac doc).2 ∧
          (tryReadability orac doc).2 ≠ "") ∨
        ((extractTitleContent orac doc).2 = extractReadableText doc ∧
          (tryReadability orac doc).2 = ""))) := by
  constructor
  · intro orac h
    refine ⟨?_, "Foo\n\n".toList, [], by decide⟩
    simp only [extractTitleContent, h]
    decide
  · intro orac doc
    constructor
    · by_cases h1 : (tryReadability orac doc).1 = ""
      · exact Or.inr ⟨by simp [extractTitleContent, h1], h1⟩
      · exact Or.inl ⟨by simp [extractTitleContent, h1], h1⟩
    · by_cases h2 : (tryReadability orac doc).2 = ""
      · exact Or.inr ⟨by simp [extractTitleContent, h2], h2⟩
      · exact Or.inl ⟨by simp [extractTitleContent, h2], h2⟩

/-- Witness for C8: the always-failing readability oracle satisfies the
hypothesis on the benign document, and extraction yields the expected
title and content. -/
theorem c8_extraction_pipeline_witness :
    tryReadability (fun _ => none) pageDoc = ("", "") ∧
    extractTitleContent (fun _ => none) pageDoc = ("Foo", "Foo\n\nHello world") := by
  refine ⟨rfl, ?_⟩
  exact (c8_extraction_pipeline.1 (fun _ => none) rfl).1

/-- Counterexample to C9 as stated: in the world where readability yields
the title `"Foo"` but renders no content and the regex fallback extracts
nothing either, the fetch returns the non-empty title together with the
extraction-failure error — a partial result exposed alongside an error. -/
theorem c9_atomic_result_counterexample :
    fetchPageContent metaTitleWorld (.wellFormed pubURL) 0 =
      ("Foo", "", some .extractionFailure) ∧ ("Foo" : String) ≠ "" := by
  exact ⟨by decide, by decide⟩

/-- C9 (amended): a fetch either succeeds, or carries exactly one error
with empty content; a non-empty title can accompany an error only when the
error is the extraction failure (the code returns the already-extracted
title in that one case); every other error comes with both title and
content empty. -/
theorem c9_atomic_result (w : World) (raw : RawURL) (m : Int) :
    (fetchPageContent w raw m).2.2 = none ∨
      ((fetchPageContent w raw m).2.1 = "" ∧
        ((fetchPageContent w raw m).1 = "" ∨
          (fetchPageContent w raw m).2.2 = some .extractionFailure)) := by
  rcases h : fetchExtract w raw with ⟨t, c, e⟩
  cases e with
  | none =>
    left
    simp [fetchPageContent, h]
  | some e' =>
    have hfp : fetchPageContent w raw m = (t, c, some e') := by
      simp [fetchPageContent, h]
    have hshape := fetchExtract_error_shape w raw t c e' h
    right
    rw [hfp]
    refine ⟨hshape.1, ?_⟩
    rcases hshape.2 with ht | he
    · exact Or.inl ht
    · exact Or.inr (by rw [he])
